import Mathlib

/-!
Verification of the MVRV bot core against its specification.

The development shallowly embeds the two-stage pipeline of the repository:

* `CoinmetricsService` (the series fetcher and latest-value resolver):
  `getMVRVHistory` with its `while (url)` pagination loop, and
  `getBitcoinMVRV` with its short-window / full-history fallback.
* the chart renderers (`generateMVRVChart` in the several `ChartService`
  variants): the pixel mapping `getX`/`getY`, value clamping, the zone
  rectangles, and the QuickChart / Resvg / remote-screenshot fallback chain.

JavaScript numbers that can be `NaN` are modelled as `Option` of a rational
(`none` is `NaN`); the division operator also sends division by zero to
`none` (in the embedded code the only reachable zero divisor is `0 / 0`,
which is `NaN` in JavaScript).  Timestamps are modelled as the already
parsed epoch instant (a natural number), matching the invariant of the
specification that every timestamp parses to a valid instant.  Network
collaborators (the upstream metrics API and the render backends) are
parameters of the embedded functions.
-/

namespace MvrvBot

/-! ## JavaScript numbers -/

/-- A JavaScript number that can be `NaN`: `none` models `NaN`. -/
abbrev JSNum := Option ℚ

/-- JavaScript `+` : `NaN` propagates. -/
def jsAdd : JSNum → JSNum → JSNum
  | some a, some b => some (a + b)
  | _, _ => none

/-- JavaScript `-` : `NaN` propagates. -/
def jsSub : JSNum → JSNum → JSNum
  | some a, some b => some (a - b)
  | _, _ => none

/-- JavaScript `*` : `NaN` propagates. -/
def jsMul : JSNum → JSNum → JSNum
  | some a, some b => some (a * b)
  | _, _ => none

/-- JavaScript `/` : `NaN` propagates and a zero divisor gives `none`
(`0 / 0` is `NaN`; no other zero divisor is reachable in the embedded
code, so collapsing infinities into `none` is faithful here). -/
def jsDiv : JSNum → JSNum → JSNum
  | some a, some b => if b = 0 then none else some (a / b)
  | _, _ => none

/-- JavaScript `Math.min` : `NaN` propagates. -/
def jsMin : JSNum → JSNum → JSNum
  | some a, some b => some (min a b)
  | _, _ => none

/-- JavaScript `Math.max` : `NaN` propagates. -/
def jsMax : JSNum → JSNum → JSNum
  | some a, some b => some (max a b)
  | _, _ => none

/-- Digit list to natural number, most significant first. -/
def digitsToNat (ds : List Char) : ℕ :=
  ds.foldl (fun acc c => 10 * acc + (c.toNat - 48)) 0

/-- Model of JavaScript `parseFloat`: parse an optional sign and a leading
decimal prefix `digits [. digits]` of the string, ignoring any trailing
garbage; if no digit is found the result is `NaN` (`none`).  Exponents and
`Infinity` literals, never produced by the upstream API, are not modelled. -/
def jsParseFloat (s : String) : JSNum :=
  let step : ℚ × List Char → JSNum := fun sc =>
    let intPart := sc.2.takeWhile Char.isDigit
    let rest := sc.2.dropWhile Char.isDigit
    let fracPart := match rest with
      | '.' :: r => r.takeWhile Char.isDigit
      | _ => []
    if intPart.isEmpty && fracPart.isEmpty then none
    else some (sc.1 * ((digitsToNat intPart : ℚ) +
      (digitsToNat fracPart : ℚ) / (10 ^ fracPart.length)))
  match s.data with
  | '-' :: rest => step (-1, rest)
  | '+' :: rest => step (1, rest)
  | cs => step (1, cs)

/-- Model of `parseFloat` applied to a field that may be absent
(`parseFloat(undefined)` is `NaN`). -/
def jsParseFloatField : Option String → JSNum
  | none => none
  | some s => jsParseFloat s

/-- JavaScript truthiness of an optional string field: `undefined` and the
empty string are falsy, every other string is truthy. -/
def truthyStr : Option String → Bool
  | none => false
  | some s => !(s == "")

/-! ## Data model of the Coinmetrics service -/

/-- One raw data point of a Coinmetrics response: the timestamp (modelled
as the already parsed epoch instant, `new Date(d.time).getTime()`) and the
`CapMVRVCur` string field, `none` when the field is absent at runtime. -/
structure RawPt where
  time : ℕ
  cap : Option String
deriving DecidableEq

/-- One page of a Coinmetrics response: the `data` array and the optional
`next_page_url` continuation pointer. -/
structure CMPage where
  data : List RawPt
  next_page_url : Option String
deriving DecidableEq

/-- The continuation pointer is falsy (`url = data.next_page_url || ''`
followed by `while (url)`): absent, or the empty string. -/
def nextFalsy (p : CMPage) : Bool :=
  match p.next_page_url with
  | none => true
  | some u => u == ""

/-- The upstream metrics API: for each requested URL, either a non-success
HTTP status (the `!response.ok` branch) or a parsed page. -/
abbrev Upstream := String → Except ℕ CMPage

/-- The errors thrown by `CoinmetricsService`.  `apiError s` stands for
`new Error("Coinmetrics API error: " + s + ...)` and `noData` for
`new Error("No MVRV value received")`. -/
inductive JsErr where
  | apiError (status : ℕ)
  | noData
deriving DecidableEq

/-- The normalized history, as returned by `getMVRVHistory`:
`{ times: allData.map(d => d.time), values: allData.map(d => parseFloat(d.CapMVRVCur)) }`. -/
structure HistoryResult where
  times : List ℕ
  values : List JSNum
deriving DecidableEq

/-! ## getMVRVHistory -/

/-- The sort comparator of `getMVRVHistory`:
`(a, b) => new Date(a.time).getTime() - new Date(b.time).getTime()`,
an ascending numeric comparator on the timestamps. -/
def timeLE (a b : RawPt) : Bool := a.time ≤ b.time

/-- The call `allData.sort(byTime)` — `Array.prototype.sort` with a comparator is a
stable sort (ECMAScript 2019), modelled by the stable `List.mergeSort`. -/
def sortByTime (l : List RawPt) : List RawPt := l.mergeSort timeLE

/-- The post-pagination processing of `getMVRVHistory` (lines 128-140 of
the service): sort the accumulated points by timestamp ascending, then map
out the times and the `parseFloat` of each value field.  No point is
dropped and an empty collection produces an empty result, not an error. -/
def processHistory (allData : List RawPt) : HistoryResult :=
  let sorted := sortByTime allData
  { times := sorted.map (·.time)
    values := sorted.map (fun d => jsParseFloatField d.cap) }

/-- The `while (url)` pagination loop of `getMVRVHistory`, with explicit
fuel: the result is `none` while the loop is still running after `fuel`
iterations, `some (.error e)` when a page request returned a non-success
status (the fetch throws), and `some (.ok acc)` when a page with a falsy
`next_page_url` was folded in.  The loop itself has no page-count cap. -/
def fetchLoop (up : Upstream) : String → List RawPt → ℕ → Option (Except JsErr (List RawPt))
  | _, _, 0 => none
  | url, acc, fuel + 1 =>
    match up url with
    | .error s => some (.error (.apiError s))
    | .ok page =>
      match page.next_page_url with
      | none => some (.ok (acc ++ page.data))
      | some u =>
        if u = "" then some (.ok (acc ++ page.data))
        else fetchLoop up u (acc ++ page.data) fuel

/-- The fetch `getMVRVHistory`: run the pagination loop from the initial request URL
and normalize the accumulated points. -/
def getMVRVHistory (up : Upstream) (startUrl : String) (fuel : ℕ) :
    Option (Except JsErr HistoryResult) :=
  (fetchLoop up startUrl [] fuel).map (Except.map processHistory)

/-- The URL requested at step `k` of the pagination loop, when the loop
gets that far: follow `k` non-falsy continuation pointers from `u`. -/
def followChain (up : Upstream) : String → ℕ → Option String
  | u, 0 => some u
  | u, k + 1 =>
    match up u with
    | .error _ => none
    | .ok page =>
      match page.next_page_url with
      | none => none
      | some nxt => if nxt = "" then none else followChain up nxt k

/-- The points accumulated along the first `k + 1` pages of the chain. -/
def chainData (up : Upstream) : String → ℕ → List RawPt
  | u, 0 =>
    match up u with
    | .error _ => []
    | .ok page => page.data
  | u, k + 1 =>
    match up u with
    | .error _ => []
    | .ok page =>
      match page.next_page_url with
      | none => page.data
      | some nxt => if nxt = "" then page.data else page.data ++ chainData up nxt k

/-- An upstream whose continuation pointer always points back at the
requested URL itself: a cyclic continuation pointer. -/
def upCyclic : Upstream := fun u => .ok { data := [{ time := 0, cap := some "1" }], next_page_url := some u }

/-- The pagination loop never finishes on this upstream, whatever the
number of iterations. -/
def loopsForever (up : Upstream) (u : String) : Prop :=
  ∀ fuel, fetchLoop up u [] fuel = none

/-! ## getBitcoinMVRV (the latest-value resolver) -/

/-- The history fallback inside `getBitcoinMVRV` (lines 50-59): fetch the
full history (its outcome is the `hist` parameter), throw
`No MVRV value received` when it has no values, otherwise return its last
value.  The second component counts the `getMVRVHistory` invocations. -/
def historyFallback (hist : Except JsErr HistoryResult) : Except JsErr JSNum × ℕ :=
  match hist with
  | .error e => (.error e, 1)
  | .ok h =>
    match h.values.getLast? with
    | none => (.error .noData, 1)
    | some v => (.ok v, 1)

/-- The resolver `getBitcoinMVRV`: issue the short-window request (its outcome is the
`short` parameter); on a non-success status throw; otherwise take the last
point of the window; when `lastPoint?.CapMVRVCur` is falsy fall back to the
full history, else return `parseFloat` of the field.  The second component
counts the `getMVRVHistory` invocations. -/
def getBitcoinMVRV (short : Except ℕ (List RawPt))
    (hist : Except JsErr HistoryResult) : Except JsErr JSNum × ℕ :=
  match short with
  | .error s => (.error (.apiError s), 0)
  | .ok pts =>
    match pts.getLast? with
    | none => historyFallback hist
    | some lp =>
      if truthyStr lp.cap then (.ok (jsParseFloatField lp.cap), 0)
      else historyFallback hist

/-! ## The chart geometry (generateMVRVChart) -/

/-- The padded plot rectangle, identical in every renderer variant:
canvas 1200 by 675, padding left 80, right 40, top 80, bottom 60. -/
structure Area where
  left : ℚ
  top : ℚ
  right : ℚ
  bottom : ℚ
  width : ℚ
  height : ℚ

/-- The rectangle `chartArea` as computed in each renderer. -/
def chartArea : Area :=
  { left := 80
    top := 80
    right := 1200 - 40
    bottom := 675 - 60
    width := 1200 - 80 - 40
    height := 675 - 80 - 60 }

/-- The fixed lower bound of the y-axis domain (`yMin = 0`). -/
def yMin : ℚ := 0

/-- The clamp applied to each plotted value:
`Math.max(yMin, Math.min(yMax, value))`, on plain rationals. -/
def clampQ (yMax v : ℚ) : ℚ := max yMin (min yMax v)

/-- The clamp on JavaScript numbers (`NaN` propagates). -/
def clampJS (yMax : ℚ) (v : JSNum) : JSNum := jsMax (some yMin) (jsMin (some yMax) v)

/-- The mapping `getY(value) = chartArea.bottom - ((value - yMin) / (yMax - yMin)) * chartArea.height`. -/
def getY (yMax : ℚ) (v : JSNum) : JSNum :=
  jsSub (some chartArea.bottom)
    (jsMul (jsDiv (jsSub v (some yMin)) (some (yMax - yMin))) (some chartArea.height))

/-- Version of `getY` on a plain rational value (no `NaN` can arise: the divisor
`yMax - yMin` is nonzero for both domains in use). -/
def getYQ (yMax v : ℚ) : ℚ :=
  chartArea.bottom - (v - yMin) / (yMax - yMin) * chartArea.height

/-- The mapping `getX(index) = chartArea.left + (index / (data.values.length - 1)) * chartArea.width`;
`n` is `data.values.length`.  For `n = 1` the divisor is `0` and `0 / 0`
is `NaN`. -/
def getX (n i : ℕ) : JSNum :=
  jsAdd (some chartArea.left)
    (jsMul (jsDiv (some (i : ℚ)) (some ((n : ℚ) - 1))) (some chartArea.width))

/-- Helper for `linePoints`: map the running point index over the values. -/
def linePointsAux (yMax : ℚ) (n : ℕ) : ℕ → List JSNum → List (JSNum × JSNum)
  | _, [] => []
  | i, v :: vs => (getX n i, getY yMax (clampJS yMax v)) :: linePointsAux yMax n (i + 1) vs

/-- The plotted polyline:
`data.values.map((value, i) => [getX(i), getY(clamp(value))])`.
The y-axis domain upper bound `yMax` is `4` in the Canvas and plain-SVG
variants and `4.5` in the Puppeteer and QuickChart variants. -/
def linePoints (yMax : ℚ) (values : List JSNum) : List (JSNum × JSNum) :=
  linePointsAux yMax values.length 0 values

/-! ## The zone rectangles (SVG renderer, yMax = 4) -/

/-- Version of `getY` of the plain-SVG renderer (`yMax = 4`), on rationals. -/
def getY4 (v : ℚ) : ℚ := getYQ 4 v

/-- The green zone rectangle
`<rect y=getY(1.0) height=chartArea.bottom - getY(1.0)>`:
the closed pixel span it covers. -/
def greenBand : Set ℚ := Set.Icc (getY4 1) chartArea.bottom

/-- The yellow zone rectangle `<rect y=getY(3.0) height=getY(1.0) - getY(3.0)>`. -/
def yellowBand : Set ℚ := Set.Icc (getY4 3) (getY4 1)

/-- The orange zone rectangle `<rect y=getY(3.5) height=getY(3.0) - getY(3.5)>`. -/
def orangeBand : Set ℚ := Set.Icc (getY4 (7/2)) (getY4 3)

/-- The red zone rectangle `<rect y=chartArea.top height=getY(3.5) - chartArea.top>`. -/
def redBand : Set ℚ := Set.Icc chartArea.top (getY4 (7/2))

/-! ## The render backend chain (generateMVRVChart of the chain variant) -/

/-- PNG bytes, opaque. -/
abbrev Bytes := List ℕ

/-- The three backends of the chain, in source order: the QuickChart POST,
the local Resvg rasterization, and the remote screenshot provider. -/
inductive BackendId where
  | qc
  | resvg
  | screenshot
deriving DecidableEq

/-- The `Logger.warn` message emitted when the QuickChart attempt is caught. -/
def warnQC (e : String) : String := "QuickChart failed, trying local Resvg: " ++ e

/-- The `Logger.warn` message emitted when the Resvg attempt is caught. -/
def warnResvg (e : String) : String :=
  "Resvg failed, will fallback to remote screenshot provider: " ++ e

/-- The outcome of one chain run: the returned bytes or the surfaced
error, the backends invoked in order, and the warnings logged. -/
structure ChainOutcome where
  result : Except String Bytes
  invoked : List BackendId
  warns : List String

/-- The fallback chain of `generateMVRVChart` (lines 98-211 of the chain
variant): try QuickChart inside `try/catch` (log a warning and advance on
any exception), then Resvg inside `try/catch` (likewise), then the remote
screenshot path, whose exception propagates to the caller.  Each backend
is an effectful collaborator, passed in as a parameter. -/
def generateMVRVChart (b : BackendId → Except String Bytes) : ChainOutcome :=
  match b .qc with
  | .ok png => { result := .ok png, invoked := [.qc], warns := [] }
  | .error e1 =>
    match b .resvg with
    | .ok png => { result := .ok png, invoked := [.qc, .resvg], warns := [warnQC e1] }
    | .error e2 =>
      match b .screenshot with
      | .ok png =>
          { result := .ok png
            invoked := [.qc, .resvg, .screenshot]
            warns := [warnQC e1, warnResvg e2] }
      | .error e3 =>
          { result := .error e3
            invoked := [.qc, .resvg, .screenshot]
            warns := [warnQC e1, warnResvg e2] }

/-! ## Concrete collaborators used by witnesses and counterexamples -/

/-- An upstream returning a single page whose only point carries an
unparsable value field. -/
def upOneBad : Upstream :=
  fun _ => .ok { data := [{ time := 1000, cap := some "abc" }], next_page_url := none }

/-- An upstream returning a single page with zero points. -/
def upEmpty : Upstream := fun _ => .ok { data := [], next_page_url := none }

/-- A two-page upstream: page `"a"` continues to `"b"`, `"b"` is final,
any other URL is a 404. -/
def upTwoPages : Upstream := fun u =>
  if u = "a" then .ok { data := [{ time := 5, cap := some "2.1" }], next_page_url := some "b" }
  else if u = "b" then .ok { data := [{ time := 3, cap := some "1.9" }], next_page_url := none }
  else .error 404

/-- An upstream whose first page continues to a URL that answers with a
non-success status 500. -/
def upBadSecond : Upstream := fun u =>
  if u = "a" then .ok { data := [{ time := 5, cap := some "2.1" }], next_page_url := some "b" }
  else .error 500

/-- A backend assignment where every backend throws. -/
def bAllFail : BackendId → Except String Bytes := fun _ => .error "boom"

/-- A backend assignment where the first backend throws and the others
succeed. -/
def bSecondOk : BackendId → Except String Bytes := fun id =>
  match id with
  | .qc => .error "x"
  | _ => .ok [137, 80, 78, 71]

/-! ## Helper lemmas -/

theorem timeLE_trans (a b c : RawPt) : timeLE a b → timeLE b c → timeLE a c := by
  simp only [timeLE, decide_eq_true_eq]
  omega

theorem timeLE_total (a b : RawPt) : timeLE a b || timeLE b a := by
  simp only [timeLE, Bool.or_eq_true, decide_eq_true_eq]
  omega

theorem sortByTime_perm (l : List RawPt) : (sortByTime l).Perm l :=
  List.mergeSort_perm l timeLE

theorem sortByTime_pairwise (l : List RawPt) :
    List.Pairwise (fun a b : RawPt => a.time ≤ b.time) (sortByTime l) :=
  (List.sorted_mergeSort timeLE_trans timeLE_total l).imp
    (fun h => by simpa [timeLE] using h)

theorem sortByTime_filter_time (l : List RawPt) (t : ℕ) :
    (sortByTime l).filter (fun d => d.time == t) = l.filter (fun d => d.time == t) := by
  have hpair : List.Pairwise (fun a b => timeLE a b = true)
      (l.filter (fun d => d.time == t)) := by
    apply List.pairwise_of_forall_mem_list
    intro a ha b hb
    simp only [List.mem_filter, beq_iff_eq] at ha hb
    simp [timeLE, ha.2, hb.2]
  have hsub : List.Sublist (l.filter (fun d => d.time == t)) (sortByTime l) :=
    List.sublist_mergeSort timeLE_trans timeLE_total hpair (List.filter_sublist l)
  have hperm : List.Perm ((sortByTime l).filter (fun d => d.time == t))
      (l.filter (fun d => d.time == t)) :=
    (List.mergeSort_perm l timeLE).filter _
  have hsub2 : List.Sublist (l.filter (fun d => d.time == t))
      ((sortByTime l).filter (fun d => d.time == t)) := by
    have h2 := hsub.filter (fun d => d.time == t)
    simpa [List.filter_filter] using h2
  exact (hsub2.eq_of_length hperm.length_eq.symm).symm

/-! ## C1: the fetched Series is the concatenation of all pages, stably
sorted by timestamp ascending -/

/-- C1: for every sequence of pages returned by the upstream, the Series
built by `getMVRVHistory` is exactly the concatenation of all pages
(nothing dropped or duplicated: a permutation of the join), sorted by
timestamp ascending (`series[i].timestamp <= series[i+1].timestamp` for
every adjacent pair), the sort stable (points with equal timestamps keep
their original arrival order: filtering each timestamp class gives the
same list before and after the sort), and the output `times` list is
nondecreasing. -/
theorem series_sorted_perm_stable (pages : List (List RawPt)) :
    List.Perm (sortByTime pages.flatten) pages.flatten ∧
    List.Pairwise (fun a b : RawPt => a.time ≤ b.time) (sortByTime pages.flatten) ∧
    (∀ t : ℕ, (sortByTime pages.flatten).filter (fun d => d.time == t)
        = pages.flatten.filter (fun d => d.time == t)) ∧
    List.Pairwise (· ≤ ·) (processHistory pages.flatten).times := by
  refine ⟨sortByTime_perm _, sortByTime_pairwise _,
    fun t => sortByTime_filter_time _ t, ?_⟩
  have h := sortByTime_pairwise pages.flatten
  simpa [processHistory, List.pairwise_map] using h

/-! ## One-step unfolding lemmas for the pagination loop -/

theorem fetchLoop_step_err {up : Upstream} {url : String} {s : ℕ} (acc : List RawPt)
    (fuel : ℕ) (hu : up url = .error s) :
    fetchLoop up url acc (fuel + 1) = some (.error (.apiError s)) := by
  simp only [fetchLoop, hu]

theorem fetchLoop_step_stop {up : Upstream} {url : String} {p : CMPage} (acc : List RawPt)
    (fuel : ℕ) (hu : up url = .ok p) (hstop : nextFalsy p = true) :
    fetchLoop up url acc (fuel + 1) = some (.ok (acc ++ p.data)) := by
  simp only [fetchLoop, hu]
  revert hstop
  simp only [nextFalsy]
  match h : p.next_page_url with
  | none => intro _; rfl
  | some nxt =>
    simp only [beq_iff_eq]
    intro hnxt
    subst hnxt
    rfl

theorem fetchLoop_step_cont {up : Upstream} {url : String} {p : CMPage} {nxt : String}
    (acc : List RawPt) (fuel : ℕ) (hu : up url = .ok p)
    (hn : p.next_page_url = some nxt) (hne : nxt ≠ "") :
    fetchLoop up url acc (fuel + 1) = fetchLoop up nxt (acc ++ p.data) fuel := by
  simp only [fetchLoop, hu, hn, if_neg hne]

/-! ## C3: the pagination loop and the missing safety cap -/

theorem upCyclic_runs_forever_aux :
    ∀ (fuel : ℕ) (u : String) (acc : List RawPt), u ≠ "" →
      fetchLoop upCyclic u acc fuel = none := by
  intro fuel
  induction fuel with
  | zero => intro u acc _; rfl
  | succ n ih =>
    intro u acc hu
    simp only [fetchLoop, upCyclic, if_neg hu]
    exact ih u _ hu

/-- C3 counterexample: the claim says the pagination loop is guarded by a
safety cap on continuation-pointer follow-ups and fails with
`PaginationLoopError` when a cyclic pointer exceeds it.  The loop of
`getMVRVHistory` has no such cap and no such error: on an upstream whose
`next_page_url` always points back at the requested URL, the loop is still
running after every number of iterations — it neither returns nor throws,
for any fuel. -/
theorem pagination_no_cap_counterexample : loopsForever upCyclic "start" :=
  fun fuel => upCyclic_runs_forever_aux fuel "start" [] (by decide)

/-- C3 amended: the pagination loop has no page-count safety cap and never
raises a `PaginationLoopError`; it terminates exactly when the chain of
continuation pointers reaches a page whose `next_page_url` is absent or
empty (returning all accumulated points) or a page request with a
non-success status, and on a cyclic continuation pointer it loops forever
(see the counterexample).  Here: if following `k` non-falsy continuation
pointers from `u` reaches `uk` and the page at `uk` has a falsy pointer,
the loop completes after `k + 1` requests with the concatenation of all
the pages visited. -/
theorem pagination_terminates (up : Upstream) (u uk : String) (acc : List RawPt)
    (k extra : ℕ) (page : CMPage)
    (hchain : followChain up u k = some uk) (hok : up uk = .ok page)
    (hstop : nextFalsy page = true) :
    fetchLoop up u acc (k + extra + 1) = some (.ok (acc ++ chainData up u k)) := by
  induction k generalizing u acc with
  | zero =>
    simp only [followChain, Option.some.injEq] at hchain
    subst hchain
    rw [Nat.zero_add, fetchLoop_step_stop acc extra hok hstop]
    simp only [chainData, hok]
  | succ k ih =>
    simp only [followChain] at hchain
    match hu : up u with
    | .error s => simp [hu] at hchain
    | .ok p =>
      simp only [hu] at hchain
      match hn : p.next_page_url with
      | none => simp [hn] at hchain
      | some nxt =>
        simp only [hn] at hchain
        by_cases hne : nxt = ""
        · rw [if_pos hne] at hchain; exact absurd hchain (by simp)
        · rw [if_neg hne] at hchain
          have harith : k + 1 + extra + 1 = (k + extra + 1) + 1 := by omega
          rw [harith, fetchLoop_step_cont acc (k + extra + 1) hu hn hne,
            ih nxt (acc ++ p.data) hchain]
          simp only [chainData, hu, hn, if_neg hne, List.append_assoc]

/-- C3 amended, witnessed on a concrete two-page upstream. -/
theorem pagination_terminates_witness :
    fetchLoop upTwoPages "a" [] 2 =
      some (.ok [{ time := 5, cap := some "2.1" }, { time := 3, cap := some "1.9" }]) :=
  pagination_terminates upTwoPages "a" "b" [] 1 0
    { data := [{ time := 3, cap := some "1.9" }], next_page_url := none }
    (by rfl) (by rfl) (by rfl)

/-! ## C8: a non-success page status fails the whole fetch -/

/-- C8: if any page request of the pagination loop answers with a
non-success HTTP status, the whole fetch throws the upstream error — no
partial Series is returned.  `uk` is the URL reached after `k` follow-ups;
when its request has status `s`, the loop ends with the `apiError` for
every accumulator and the fetch result is that error, never a Series. -/
theorem fetch_fails_on_bad_status (up : Upstream) (u uk : String) (k extra s : ℕ)
    (hchain : followChain up u k = some uk) (hbad : up uk = .error s) :
    (∀ acc, fetchLoop up u acc (k + extra + 1) = some (.error (.apiError s))) ∧
    getMVRVHistory up u (k + extra + 1) = some (.error (.apiError s)) := by
  have main : ∀ acc, fetchLoop up u acc (k + extra + 1) = some (.error (.apiError s)) := by
    induction k generalizing u with
    | zero =>
      simp only [followChain, Option.some.injEq] at hchain
      subst hchain
      intro acc
      rw [Nat.zero_add]
      exact fetchLoop_step_err acc extra hbad
    | succ k ih =>
      simp only [followChain] at hchain
      match hu : up u with
      | .error s2 => simp [hu] at hchain
      | .ok p =>
        simp only [hu] at hchain
        match hn : p.next_page_url with
        | none => simp [hn] at hchain
        | some nxt =>
          simp only [hn] at hchain
          by_cases hne : nxt = ""
          · rw [if_pos hne] at hchain; exact absurd hchain (by simp)
          · rw [if_neg hne] at hchain
            intro acc
            have harith : k + 1 + extra + 1 = (k + extra + 1) + 1 := by omega
            rw [harith, fetchLoop_step_cont acc (k + extra + 1) hu hn hne]
            exact ih nxt hchain _
  refine ⟨main, ?_⟩
  simp [getMVRVHistory, main [], Except.map]

/-- C8, witnessed: the second page of `upBadSecond` answers 500 and the
fetch surfaces the upstream error. -/
theorem fetch_fails_on_bad_status_witness :
    getMVRVHistory upBadSecond "a" 2 = some (.error (.apiError 500)) :=
  (fetch_fails_on_bad_status upBadSecond "a" "b" 1 0 500 (by rfl) (by rfl)).2

/-! ## C4: unparsable points are kept, an empty result is not an error -/

/-- C4 counterexample: the claim says a point with an unparsable numeric
field is dropped, and that a fetch in which all points are dropped fails
with `EmptyResultError`.  The code does neither: `parseFloat` is mapped
over every accumulated point (no filtering), so a fetch whose only point
carries the unparsable field `"abc"` succeeds with one retained `NaN`
value, and a fetch with zero points succeeds with an empty Series. -/
theorem unparsable_kept_counterexample :
    getMVRVHistory upOneBad "start" 1 = some (.ok { times := [1000], values := [none] }) ∧
    getMVRVHistory upEmpty "start" 1 = some (.ok { times := [], values := [] }) := by
  constructor
  · simp [getMVRVHistory, fetchLoop, upOneBad, Except.map, processHistory, sortByTime]
    rfl
  · simp [getMVRVHistory, fetchLoop, upEmpty, Except.map, processHistory, sortByTime]

/-- C4 amended: no point is ever dropped — `parseFloat` is mapped over
every accumulated point, an unparsable field merely becoming a retained
`NaN` value — and a fetch with zero usable points does not fail: the
Series has exactly as many values (and times) as accumulated points, it is
empty exactly when no point at all was accumulated, and every completed
pagination loop yields a successful fetch result, whatever the points
contain. -/
theorem history_keeps_unparsable (allData : List RawPt) :
    (processHistory allData).values.length = allData.length ∧
    (processHistory allData).times.length = allData.length ∧
    ((processHistory allData).values = [] ↔ allData = []) ∧
    (∀ (up : Upstream) (u : String) (fuel : ℕ) (d : List RawPt),
      fetchLoop up u [] fuel = some (.ok d) →
      getMVRVHistory up u fuel = some (.ok (processHistory d))) := by
  refine ⟨by simp [processHistory, sortByTime], by simp [processHistory, sortByTime],
    ?_, ?_⟩
  · constructor
    · intro h
      have := congrArg List.length h
      simp [processHistory, sortByTime] at this
      exact this
    · intro h
      subst h
      simp [processHistory, sortByTime]
  · intro up u fuel d hd
    simp [getMVRVHistory, hd, Except.map]

/-- C4 amended, witnessed: the single-bad-point fetch keeps its point. -/
theorem history_keeps_unparsable_witness :
    (processHistory [{ time := 1000, cap := some "abc" }]).values.length = 1 ∧
    getMVRVHistory upOneBad "start" 1 =
      some (.ok (processHistory [{ time := 1000, cap := some "abc" }])) :=
  ⟨(history_keeps_unparsable [{ time := 1000, cap := some "abc" }]).1,
    (history_keeps_unparsable [{ time := 1000, cap := some "abc" }]).2.2.2
      upOneBad "start" 1 [{ time := 1000, cap := some "abc" }] (by rfl)⟩

/-! ## Error shape of the history fetch -/

theorem fetchLoop_error_shape (up : Upstream) :
    ∀ (fuel : ℕ) (u : String) (acc : List RawPt) (e : JsErr),
      fetchLoop up u acc fuel = some (.error e) → ∃ s, e = .apiError s := by
  intro fuel
  induction fuel with
  | zero => intro u acc e h; exact absurd h (by simp [fetchLoop])
  | succ n ih =>
    intro u acc e h
    match hu : up u with
    | .error s =>
      rw [fetchLoop_step_err acc n hu] at h
      exact ⟨s, by simpa using h.symm⟩
    | .ok p =>
      match hn : p.next_page_url with
      | none =>
        rw [fetchLoop_step_stop acc n hu (by simp [nextFalsy, hn])] at h
        exact absurd h (by simp)
      | some nxt =>
        by_cases hne : nxt = ""
        · rw [fetchLoop_step_stop acc n hu (by simp [nextFalsy, hn, hne])] at h
          exact absurd h (by simp)
        · rw [fetchLoop_step_cont acc n hu hn hne] at h
          exact ih nxt _ e h

theorem getMVRVHistory_error_shape (up : Upstream) (u : String) (fuel : ℕ) (e : JsErr)
    (h : getMVRVHistory up u fuel = some (.error e)) : ∃ s, e = .apiError s := by
  simp only [getMVRVHistory] at h
  match hf : fetchLoop up u [] fuel with
  | none => rw [hf] at h; exact absurd h (by simp)
  | some (.ok d) => rw [hf] at h; exact absurd h (by simp [Except.map])
  | some (.error e2) =>
    rw [hf] at h
    simp [Except.map] at h
    obtain ⟨s, hs⟩ := fetchLoop_error_shape up fuel u [] e2 hf
    exact ⟨s, by rw [← h]; exact hs⟩

/-! ## C5: the latest-value resolution and its fallback condition -/

/-- C5 counterexample: the claim says `getLatest` falls back to the full
history whenever the last short-window point has no usable numeric value.
The code only checks JavaScript truthiness of the raw field: a last point
whose field is the non-empty but unparsable string `"abc"` makes
`getBitcoinMVRV` return `parseFloat("abc")`, i.e. `NaN`, with the
full-history fetch never invoked (invocation count 0) — instead of the
history fallback value `2` with one invocation, as the claim requires. -/
theorem latest_unparsable_counterexample :
    getBitcoinMVRV (.ok [{ time := 1000, cap := some "abc" }])
      (.ok { times := [2000], values := [some 2] }) = (.ok none, 0) := rfl

/-- C5 amended: `getBitcoinMVRV` returns `parseFloat` of the last
short-window point field whenever that field is present and non-empty
(truthy) — even when unparsable, yielding `NaN` — and otherwise invokes
the full-history fetch exactly once, returning its last value; the history
fallback throws `No MVRV value received` exactly when the history has no
values; and when the history outcome comes from `getMVRVHistory`, a
`noData` failure of the resolver implies both that the short window lacked
a truthy last value and that the full history was empty. -/
theorem latest_value_resolution (pts : List RawPt) (hist : Except JsErr HistoryResult) :
    (∀ lp, pts.getLast? = some lp → truthyStr lp.cap = true →
      getBitcoinMVRV (.ok pts) hist = (.ok (jsParseFloatField lp.cap), 0)) ∧
    (∀ lp, pts.getLast? = some lp → truthyStr lp.cap = false →
      getBitcoinMVRV (.ok pts) hist = historyFallback hist) ∧
    (pts.getLast? = none → getBitcoinMVRV (.ok pts) hist = historyFallback hist) ∧
    (∀ h v, hist = .ok h → h.values.getLast? = some v →
      historyFallback hist = (.ok v, 1)) ∧
    (∀ h, hist = .ok h → h.values = [] →
      historyFallback hist = (.error .noData, 1)) ∧
    (∀ (up : Upstream) (u : String) (fuel : ℕ),
      getMVRVHistory up u fuel = some hist →
      (getBitcoinMVRV (.ok pts) hist).1 = .error .noData →
      (∃ h, hist = .ok h ∧ h.values = []) ∧
      (pts.getLast? = none ∨ ∃ lp, pts.getLast? = some lp ∧ truthyStr lp.cap = false)) := by
  refine ⟨?_, ?_, ?_, ?_, ?_, ?_⟩
  · intro lp hlp ht
    simp [getBitcoinMVRV, hlp, ht]
  · intro lp hlp ht
    simp [getBitcoinMVRV, hlp, ht]
  · intro hlp
    simp [getBitcoinMVRV, hlp]
  · intro h v hh hv
    simp [historyFallback, hh, hv]
  · intro h hh hv
    simp [historyFallback, hh, hv]
  · intro up u fuel hh hres
    have hfb : getBitcoinMVRV (.ok pts) hist = historyFallback hist ∧
        (pts.getLast? = none ∨ ∃ lp, pts.getLast? = some lp ∧ truthyStr lp.cap = false) := by
      match hlp : pts.getLast? with
      | none => exact ⟨by simp [getBitcoinMVRV, hlp], .inl rfl⟩
      | some lp =>
        by_cases ht : truthyStr lp.cap = true
        · exfalso
          rw [show getBitcoinMVRV (.ok pts) hist = (.ok (jsParseFloatField lp.cap), 0) by
            simp [getBitcoinMVRV, hlp, ht]] at hres
          simp at hres
        · exact ⟨by simp [getBitcoinMVRV, hlp, ht],
            .inr ⟨lp, rfl, by simpa using ht⟩⟩
    rw [hfb.1] at hres
    refine ⟨?_, hfb.2⟩
    match hhist : hist with
    | .error e =>
      obtain ⟨s, hs⟩ := getMVRVHistory_error_shape up u fuel e hh
      simp [historyFallback] at hres
      rw [hres] at hs
      exact absurd hs (by simp)
    | .ok h =>
      match hv : h.values.getLast? with
      | some v => simp [historyFallback, hv] at hres
      | none =>
        exact ⟨h, rfl, List.getLast?_eq_none_iff.mp hv⟩

/-- C5 amended, witnessed: a falsy (empty-string) last field takes the
fallback and returns the last history value with one invocation. -/
theorem latest_value_resolution_witness :
    getBitcoinMVRV (.ok [{ time := 1000, cap := some "" }])
      (.ok { times := [2000], values := [some 2] }) = (.ok (some 2), 1) :=
  (latest_value_resolution [{ time := 1000, cap := some "" }]
      (.ok { times := [2000], values := [some 2] })).2.1
    { time := 1000, cap := some "" } rfl rfl

/-! ## C10: a short-window HTTP failure propagates without fallback -/

/-- C10: when the short-window request fails with a non-success status,
`getBitcoinMVRV` propagates the upstream error directly and never invokes
the full-history fetch (invocation count 0); the fallback is entered only
from a successful short-window response whose last point is missing or has
a falsy value field. -/
theorem short_window_error_propagates (s : ℕ) (pts : List RawPt)
    (hist : Except JsErr HistoryResult) :
    getBitcoinMVRV (.error s) hist = (.error (.apiError s), 0) ∧
    ((getBitcoinMVRV (.ok pts) hist).2 ≠ 0 →
      pts.getLast? = none ∨ ∃ lp, pts.getLast? = some lp ∧ truthyStr lp.cap = false) := by
  refine ⟨rfl, ?_⟩
  intro hcount
  match hlp : pts.getLast? with
  | none => exact .inl rfl
  | some lp =>
    by_cases ht : truthyStr lp.cap = true
    · exfalso
      apply hcount
      simp [getBitcoinMVRV, hlp, ht]
    · exact .inr ⟨lp, rfl, by simpa using ht⟩

/-- C10, witnessed: a 500 on the short window surfaces as the upstream
error with zero history invocations; and when the fallback is entered on
an empty short window, the window indeed lacked a last point. -/
theorem short_window_error_propagates_witness :
    getBitcoinMVRV (.error 500) (.ok { times := [2000], values := [some 2] })
        = (.error (.apiError 500), 0) ∧
    (([] : List RawPt).getLast? = none ∨
      ∃ lp, ([] : List RawPt).getLast? = some lp ∧ truthyStr lp.cap = false) :=
  ⟨(short_window_error_propagates 500 []
      (.ok { times := [2000], values := [some 2] })).1,
    (short_window_error_propagates 500 []
      (.ok { times := [2000], values := [some 2] })).2
      (by simp [getBitcoinMVRV, historyFallback])⟩

/-! ## C2: the render backend chain -/

/-- C2: the chain of `generateMVRVChart` tries its backends in the fixed
priority order QuickChart, Resvg, remote screenshot; the first two
attempts are wrapped so that an exception is caught and logged as a
warning before advancing; when the first backend throws and the second
succeeds, the second backend bytes are returned and no third backend is
invoked; and the chain surfaces a failure to the caller (the
all-backends-exhausted outcome) exactly when every one of the three
backends throws, in which case each backend was invoked exactly once, in
priority order. -/
theorem render_chain_fallback (b : BackendId → Except String Bytes) :
    (∀ e png, b .qc = .error e → b .resvg = .ok png →
      generateMVRVChart b =
        { result := .ok png, invoked := [.qc, .resvg], warns := [warnQC e] }) ∧
    (∀ e1 e2 e3, b .qc = .error e1 → b .resvg = .error e2 → b .screenshot = .error e3 →
      generateMVRVChart b =
        { result := .error e3
          invoked := [.qc, .resvg, .screenshot]
          warns := [warnQC e1, warnResvg e2] }) ∧
    ((∃ e, (generateMVRVChart b).result = .error e) ↔
      (∃ e, b .qc = .error e) ∧ (∃ e, b .resvg = .error e) ∧
      (∃ e, b .screenshot = .error e)) := by
  refine ⟨?_, ?_, ?_⟩
  · intro e png h1 h2
    simp [generateMVRVChart, h1, h2]
  · intro e1 e2 e3 h1 h2 h3
    simp [generateMVRVChart, h1, h2, h3]
  · match h1 : b .qc with
    | .ok png => simp [generateMVRVChart, h1]
    | .error e1 =>
      match h2 : b .resvg with
      | .ok png => simp [generateMVRVChart, h1, h2]
      | .error e2 =>
        match h3 : b .screenshot with
        | .ok png => simp [generateMVRVChart, h1, h2, h3]
        | .error e3 => simp [generateMVRVChart, h1, h2, h3]

/-- C2, witnessed: first backend throws, second succeeds — the second
backend bytes are returned with one warning logged and the third backend
never invoked. -/
theorem render_chain_fallback_witness :
    generateMVRVChart bSecondOk =
      { result := .ok [137, 80, 78, 71]
        invoked := [.qc, .resvg]
        warns := [warnQC "x"] } :=
  (render_chain_fallback bSecondOk).1 "x" [137, 80, 78, 71] rfl rfl

/-! ## Chart mapping helper lemmas -/

theorem clampJS_some (yMax v : ℚ) : clampJS yMax (some v) = some (clampQ yMax v) := rfl

theorem getY_some (yMax v : ℚ) (h : yMax - yMin ≠ 0) :
    getY yMax (some v) = some (getYQ yMax v) := by
  simp [getY, getYQ, jsSub, jsMul, jsDiv, h]

theorem getX_some (n i : ℕ) (h : ((n : ℚ) - 1) ≠ 0) :
    getX n i = some (chartArea.left + (i : ℚ) / ((n : ℚ) - 1) * chartArea.width) := by
  simp [getX, jsAdd, jsMul, jsDiv, h]

theorem linePointsAux_getElem (yMax : ℚ) (n : ℕ) :
    ∀ (vs : List JSNum) (i j : ℕ),
      (linePointsAux yMax n i vs)[j]? =
        vs[j]?.map fun v => (getX n (i + j), getY yMax (clampJS yMax v)) := by
  intro vs
  induction vs with
  | nil => intro i j; simp [linePointsAux]
  | cons v vs ih =>
    intro i j
    match j with
    | 0 => simp [linePointsAux]
    | j + 1 =>
      have harith : i + 1 + j = i + (j + 1) := by omega
      simp only [linePointsAux, List.getElem?_cons_succ, ih (i + 1) j, harith]

/-! ## C6: the pixel mapping of the renderers -/

/-- C6: for every plotted point, the renderer first clamps the value into
the fixed y-axis domain (lower bound `yMin = 0`, upper bound `4` in the
Canvas and plain-SVG variants, `4.5` in the Puppeteer and QuickChart
variants; in-domain values are unchanged, i.e. clipped, not rescaled) and
then maps it to the vertical pixel by the linear formula
`y = bottom - (value - yMin) / (yMax - yMin) * plotHeight`, while the
horizontal pixel is linear in the ordinal index of the point —
`x = left + index / (n - 1) * plotWidth` — with constant spacing between
consecutive indices (point-index-uniform, not time-uniform). -/
theorem chart_mapping (yMax : ℚ) (hm : yMax = 4 ∨ yMax = 9/2)
    (values : List JSNum) (i : ℕ) (v : ℚ) (h2 : 2 ≤ values.length)
    (hv : values[i]? = some (some v)) :
    (linePoints yMax values)[i]? =
      some (some (chartArea.left + (i : ℚ) / ((values.length : ℚ) - 1) * chartArea.width),
        some (chartArea.bottom - (clampQ yMax v - yMin) / (yMax - yMin) * chartArea.height)) ∧
    yMin ≤ clampQ yMax v ∧ clampQ yMax v ≤ yMax ∧
    (yMin ≤ v → v ≤ yMax → clampQ yMax v = v) ∧
    (∀ j : ℕ, jsSub (getX values.length (j + 1)) (getX values.length j) =
      some (chartArea.width / ((values.length : ℚ) - 1))) := by
  have hden : ((values.length : ℚ) - 1) ≠ 0 := by
    have h2q : (2 : ℚ) ≤ (values.length : ℚ) := by exact_mod_cast h2
    intro hc
    rw [sub_eq_zero] at hc
    rw [hc] at h2q
    norm_num at h2q
  have hy : yMax - yMin ≠ 0 := by
    rcases hm with h | h <;> rw [h] <;> norm_num [yMin]
  have hyb : yMin ≤ yMax := by
    rcases hm with h | h <;> rw [h] <;> norm_num [yMin]
  refine ⟨?_, le_max_left _ _, max_le hyb (min_le_left _ _), ?_, ?_⟩
  · rw [linePoints, linePointsAux_getElem yMax values.length values 0 i, hv]
    simp only [Option.map_some']
    rw [Nat.zero_add, getX_some values.length i hden, clampJS_some,
      getY_some yMax _ hy, getYQ]
  · intro hl hu
    rw [clampQ, min_eq_right hu, max_eq_right hl]
  · intro j
    rw [getX_some values.length (j + 1) hden, getX_some values.length j hden]
    simp only [jsSub, Option.some.injEq]
    push_cast
    field_simp
    ring

/-- C6, witnessed: with `yMax = 4` and the two-point series `[1, 5]`, the
point at index 1 is clamped to 4 and mapped to the pixel (1160, 80). -/
theorem chart_mapping_witness :
    (linePoints 4 [some 1, some 5])[1]? = some (some 1160, some 80) := by
  have h := (chart_mapping 4 (Or.inl rfl) [some 1, some 5] 1 5
    (by simp) (by simp)).1
  rw [h]
  norm_num [chartArea, clampQ, yMin, min_def, max_def]

/-! ## C7: series shorter than two points -/

/-- C7 counterexample: the claim says that for a series with fewer than 2
points the renderer degrades to drawing a single point or an empty plot
rather than dividing by zero in the x-mapping.  For a one-point series the
x-mapping does divide by zero: `getX(0)` computes `0 / (1 - 1)`, which is
`NaN`, so the sole emitted polyline point has a `NaN` x-coordinate (it is
not a drawable single point), its y-coordinate being the ordinary mapping
of the clamped value. -/
theorem single_point_nan_counterexample :
    linePoints 4 [some 2] = [(none, some (695/2))] := by
  norm_num [linePoints, linePointsAux, getX, getY, clampJS, jsAdd, jsSub, jsMul,
    jsDiv, jsMin, jsMax, chartArea, yMin, min_def, max_def]

/-- C7 amended: for a series of length 0 the renderer emits an empty
polyline and the pure rendering computation is total (nothing throws, the
image is blank); for a series of length 1 no exception is raised either,
but the x-mapping divides zero by zero, so the single emitted point
carries a `NaN` x-coordinate rather than being drawn as a single visible
point. -/
theorem short_series_amended :
    (∀ yMax : ℚ, linePoints yMax [] = []) ∧
    (∀ (yMax : ℚ) (v : JSNum), (linePoints yMax [v]).map Prod.fst = [none]) := by
  constructor
  · intro yMax
    rfl
  · intro yMax v
    simp [linePoints, linePointsAux, getX, jsAdd, jsMul, jsDiv]

/-! ## C9: the zone bands at the thresholds -/

/-- C9 counterexample: the claim says every value — in particular one
exactly at a zone boundary — lies in exactly one band under a half-open
convention.  The zone rectangles of the renderer are adjacent closed pixel
spans that share their boundary line: the pixel of the boundary value 1.0
lies in both the green band and the yellow band. -/
theorem zone_boundary_counterexample :
    getY4 1 ∈ greenBand ∧ getY4 1 ∈ yellowBand := by
  constructor <;>
    norm_num [greenBand, yellowBand, getY4, getYQ, chartArea, yMin, Set.mem_Icc]

/-- C9 amended: the four zone rectangles are adjacent closed pixel
intervals with shared endpoints: together they cover the whole plot height
exactly (no gap), each adjacent pair overlaps in precisely the single
boundary line of its threshold (so a value exactly at 1.0, 3.0 or 3.5 lies
on the edge of two bands — there is no half-open convention), non-adjacent
bands are disjoint, and a value strictly inside a zone lies in exactly one
band. -/
theorem zone_bands_amended :
    (redBand ∪ orangeBand ∪ yellowBand ∪ greenBand =
      Set.Icc chartArea.top chartArea.bottom) ∧
    (greenBand ∩ yellowBand = {getY4 1}) ∧
    (yellowBand ∩ orangeBand = {getY4 3}) ∧
    (orangeBand ∩ redBand = {getY4 (7/2)}) ∧
    (greenBand ∩ orangeBand = ∅) ∧
    (greenBand ∩ redBand = ∅) ∧
    (yellowBand ∩ redBand = ∅) ∧
    (∀ v : ℚ, 0 < v → v < 1 →
      getY4 v ∈ greenBand ∧ getY4 v ∉ yellowBand ∧ getY4 v ∉ orangeBand ∧
        getY4 v ∉ redBand) := by
  refine ⟨?_, ?_, ?_, ?_, ?_, ?_, ?_, ?_⟩
  · rw [redBand, orangeBand, yellowBand, greenBand,
      Set.Icc_union_Icc_eq_Icc (by norm_num [getY4, getYQ, chartArea, yMin])
        (by norm_num [getY4, getYQ, chartArea, yMin]),
      Set.Icc_union_Icc_eq_Icc (by norm_num [getY4, getYQ, chartArea, yMin])
        (by norm_num [getY4, getYQ, chartArea, yMin]),
      Set.Icc_union_Icc_eq_Icc (by norm_num [getY4, getYQ, chartArea, yMin])
        (by norm_num [getY4, getYQ, chartArea, yMin])]
  · rw [greenBand, yellowBand, Set.inter_comm]
    exact Set.Icc_inter_Icc_eq_singleton
      (by norm_num [getY4, getYQ, chartArea, yMin])
      (by norm_num [getY4, getYQ, chartArea, yMin])
  · rw [yellowBand, orangeBand, Set.inter_comm]
    exact Set.Icc_inter_Icc_eq_singleton
      (by norm_num [getY4, getYQ, chartArea, yMin])
      (by norm_num [getY4, getYQ, chartArea, yMin])
  · rw [orangeBand, redBand, Set.inter_comm]
    exact Set.Icc_inter_Icc_eq_singleton
      (by norm_num [getY4, getYQ, chartArea, yMin])
      (by norm_num [getY4, getYQ, chartArea, yMin])
  · rw [greenBand, orangeBand, Set.Icc_inter_Icc]
    exact Set.Icc_eq_empty
      (by norm_num [getY4, getYQ, chartArea, yMin, sup_eq_max, inf_eq_min,
        max_def, min_def])
  · rw [greenBand, redBand, Set.Icc_inter_Icc]
    exact Set.Icc_eq_empty
      (by norm_num [getY4, getYQ, chartArea, yMin, sup_eq_max, inf_eq_min,
        max_def, min_def])
  · rw [yellowBand, redBand, Set.Icc_inter_Icc]
    exact Set.Icc_eq_empty
      (by norm_num [getY4, getYQ, chartArea, yMin, sup_eq_max, inf_eq_min,
        max_def, min_def])
  · intro v h0 h1
    simp only [greenBand, yellowBand, orangeBand, redBand, getY4, getYQ,
      chartArea, yMin, Set.mem_Icc, not_and, not_le]
    refine ⟨⟨by linarith, by linarith⟩, ?_, ?_, ?_⟩
    · intro h
      linarith
    · intro h
      linarith
    · intro h
      linarith

/-- C9 amended, witnessed: the interior value 1/2 lies in the green band
and in no other. -/
theorem zone_bands_amended_witness :
    getY4 (1/2) ∈ greenBand ∧ getY4 (1/2) ∉ yellowBand ∧
      getY4 (1/2) ∉ orangeBand ∧ getY4 (1/2) ∉ redBand :=
  zone_bands_amended.2.2.2.2.2.2.2 (1/2) (by norm_num) (by norm_num)

end MvrvBot
